import Mathlib

/-!
Verification of the DianaV2 production serving runtime.

This file gives a shallow embedding of the serving subsystem of the
repository (`ml/ab_testing.py`, `ml/server.py`, `ml/drift_detection.py`,
`ml/predict.py`) and proves the specified properties about it.

Modelling conventions:
* Python floats are modelled as rationals (`ℚ`); all arithmetic that the
  claims depend on is exact in the source (comparisons, counting,
  bucketing), so this is faithful.
* External library primitives (hashlib digests, `np.log`, `np.sqrt`,
  `scipy.stats.ks_2samp`) are passed in as function parameters: the code
  under verification only feeds their outputs into comparisons, so every
  theorem quantifies over an arbitrary such backend.
* Python dicts are modelled as `String → Option _` maps or association
  lists (`List (String × _)`), mutable state as explicit state passing.
-/

namespace Diana

/-! ## A/B testing — `ml/ab_testing.py`

`ABTestConfig` mirrors the dataclass of the same name.  The manager's
`self._tests` dict is modelled as a lookup map `String → Option ABTestConfig`
and `self._predictions` as a list of `PredictionRecord`. -/

structure ABTestConfig where
  test_name : String
  baseline_version : String
  challenger_version : String
  traffic_split : ℚ
  created_at : String
  end_at : Option String
  status : String
  description : String
deriving DecidableEq

structure PredictionRecord where
  test_name : String
  model_version : String
  patient_hash : String
  features : List (String × ℚ)
  prediction : List (String × String)
  timestamp : String
  actual_outcome : Option String
deriving DecidableEq

/-- `ABTestManager.route_request`.  `md5hex` models
`int(hashlib.md5(patient_id.encode()).hexdigest(), 16)`, an external
primitive; every theorem below holds for an arbitrary digest function. -/
def route_request (md5hex : String → Nat) (tests : String → Option ABTestConfig)
    (patient_id test_name : String) : String × String :=
  match tests test_name with
  | none => ("default", "baseline")
  | some test =>
    if test.status ≠ "active" then
      (test.baseline_version, "baseline")
    else
      let hash_value := md5hex patient_id
      let bucket : ℚ := ((hash_value % 100 : Nat) : ℚ) / 100
      if bucket < test.traffic_split then
        (test.challenger_version, "challenger")
      else
        (test.baseline_version, "baseline")

/-- The update applied to one record by `ABTestManager.record_outcome`'s loop
body: back-fill `actual_outcome` when the hash matches and no outcome is set. -/
def outcome_update (patient_hash actual_outcome : String) (p : PredictionRecord) :
    PredictionRecord :=
  if p.patient_hash = patient_hash ∧ p.actual_outcome = none then
    { p with actual_outcome := some actual_outcome }
  else p

/-- The loop of `ABTestManager.record_outcome`: walk `self._predictions`,
back-filling every matching unresolved record and counting the updates. -/
def record_outcome_loop (patient_hash actual_outcome : String) :
    List PredictionRecord → Nat × List PredictionRecord
  | [] => (0, [])
  | p :: rest =>
    let r := record_outcome_loop patient_hash actual_outcome rest
    if p.patient_hash = patient_hash ∧ p.actual_outcome = none then
      (r.1 + 1, { p with actual_outcome := some actual_outcome } :: r.2)
    else
      (r.1, p :: r.2)

/-- `ABTestManager.record_outcome`.  `sha256_16` models
`hashlib.sha256(patient_id.encode()).hexdigest()[:16]`.  Returns the number
of updated records together with the updated prediction list. -/
def record_outcome (sha256_16 : String → String) (predictions : List PredictionRecord)
    (patient_id actual_outcome : String) : Nat × List PredictionRecord :=
  record_outcome_loop (sha256_16 patient_id) actual_outcome predictions

/-! ## Sliding-window rate limiter — `ml/server.py` (`RateLimiter`) -/

structure RateLimiter where
  requests_per_minute : Nat
  requests_per_second : Nat
  minute_requests : String → List ℚ
  second_requests : String → List ℚ

/-- `RateLimiter._cleanup_old`: keep only timestamps strictly newer than
`now - window`. -/
def cleanup_old (requests_list : List ℚ) (window now : ℚ) : List ℚ :=
  requests_list.filter fun t => now - window < t

/-- `RateLimiter.is_allowed` for a given client and current time.  The whole
method body runs under `self._lock`, so it is modelled as one atomic state
transformation.  The purged lists are stored back before the limit checks,
exactly as the two dict assignments in the source do. -/
def is_allowed (rl : RateLimiter) (client_id : String) (now : ℚ) :
    (Bool × Option String) × RateLimiter :=
  let m := cleanup_old (rl.minute_requests client_id) 60 now
  let s := cleanup_old (rl.second_requests client_id) 1 now
  let purged : RateLimiter :=
    { rl with
      minute_requests := Function.update rl.minute_requests client_id m
      second_requests := Function.update rl.second_requests client_id s }
  if rl.requests_per_minute ≤ m.length then
    ((false, some "rate limit exceeded (per minute)"), purged)
  else if rl.requests_per_second ≤ s.length then
    ((false, some "rate limit exceeded (per second)"), purged)
  else
    ((true, none),
      { rl with
        minute_requests := Function.update rl.minute_requests client_id (m ++ [now])
        second_requests := Function.update rl.second_requests client_id (s ++ [now]) })

/-! ## Drift detection — `ml/drift_detection.py` -/

/-- External numeric primitives used by `DriftMonitor`:
`log` models `np.log`, `sqrt` models the square root inside `np.std`,
`ks` models `DriftMonitor.ks_test` backed by `scipy.stats.ks_2samp`
(returning `(0, 1)` when scipy is unavailable or raises).  The code under
verification only ever feeds their outputs into comparisons and report
fields, so all theorems hold for an arbitrary backend. -/
structure NumBackend where
  log : ℚ → ℚ
  sqrt : ℚ → ℚ
  ks : List ℚ → List ℚ → ℚ × ℚ

/-- PSI threshold `DriftMonitor.PSI_LOW = 0.1`. -/
def PSI_LOW : ℚ := 1 / 10

/-- PSI threshold `DriftMonitor.PSI_MEDIUM = 0.2`. -/
def PSI_MEDIUM : ℚ := 1 / 5

/-- PSI threshold `DriftMonitor.PSI_HIGH = 0.25`. -/
def PSI_HIGH : ℚ := 1 / 4

/-- KS significance level `DriftMonitor.KS_ALPHA = 0.05`. -/
def KS_ALPHA : ℚ := 1 / 20

/-- Minimum of a list, `np.min` style (0 is never used: callers guard
against the empty list exactly as `np.histogram` does via its range). -/
def list_min : List ℚ → ℚ
  | [] => 0
  | x :: xs => xs.foldl min x

/-- Maximum of a list. -/
def list_max : List ℚ → ℚ
  | [] => 1
  | x :: xs => xs.foldl max x

/-- The bin range `np.histogram(reference, bins=n)` derives from the data:
`(min, max)`, widened to `(v - 0.5, v + 0.5)` for constant data and
defaulting to `(0, 1)` for empty data. -/
def hist_range (values : List ℚ) : ℚ × ℚ :=
  match values with
  | [] => (0, 1)
  | _ =>
    let lo := list_min values
    let hi := list_max values
    if lo = hi then (lo - 1/2, hi + 1/2) else (lo, hi)

/-- The `i`-th bin edge of `n_bins` equal-width bins over `[lo, hi]`. -/
def bin_edge (lo hi : ℚ) (n_bins i : Nat) : ℚ :=
  lo + (hi - lo) * i / n_bins

/-- `np.histogram(values, bins=bin_edges)` bin counts: bin `i` is
`[edge i, edge (i+1))`, except the last bin which also includes the right
endpoint. -/
def hist_counts (lo hi : ℚ) (n_bins : Nat) (values : List ℚ) : List Nat :=
  (List.range n_bins).map fun i =>
    (values.filter fun v =>
      bin_edge lo hi n_bins i ≤ v ∧
        (if i = n_bins - 1 then v ≤ hi else v < bin_edge lo hi n_bins (i + 1))).length

/-- `DriftMonitor.calculate_psi`: bin by the reference's range, smooth the
bin proportions by 0.001, and sum `(cur_p - ref_p) * log (cur_p / ref_p)`.
The `try/except` around `np.histogram` only fires on NaN/inf inputs, which
do not exist in `ℚ`, so the embedding is total. -/
def calculate_psi (log : ℚ → ℚ) (reference current : List ℚ) (n_bins : Nat) : ℚ :=
  let r := hist_range reference
  let ref_counts := hist_counts r.1 r.2 n_bins reference
  let cur_counts := hist_counts r.1 r.2 n_bins current
  let ref_props := ref_counts.map fun c => ((c : ℚ) + 1/1000) / ((reference.length : ℚ) + (1/1000) * n_bins)
  let cur_props := cur_counts.map fun c => ((c : ℚ) + 1/1000) / ((current.length : ℚ) + (1/1000) * n_bins)
  (((cur_props.zip ref_props).map fun pr => (pr.1 - pr.2) * log (pr.1 / pr.2)).sum)

/-- `np.mean` (0 for the empty list, where numpy would produce NaN;
no claim touches that case). -/
def list_mean (values : List ℚ) : ℚ :=
  values.sum / values.length

/-- Population variance, the square of `np.std`. -/
def list_var (values : List ℚ) : ℚ :=
  ((values.map fun v => (v - list_mean values) ^ 2).sum) / values.length

/-- Per-feature entry of `DriftReport.feature_drifts`. -/
structure FeatureDrift where
  psi : ℚ
  ks_statistic : ℚ
  ks_pvalue : ℚ
  severity : String
  drifted : Bool
  reference_mean : ℚ
  reference_std : ℚ
  current_mean : ℚ
  current_std : ℚ
deriving DecidableEq

/-- The structured content of the recommendation strings produced by
`DriftMonitor._generate_recommendations` (string formatting is
presentation and not modelled). -/
inductive Recommendation where
  | retrainHigh (features : List String)
  | meanShift (feature : String) (shift refMean curMean : ℚ)
  | reviewDataCollection
  | noDrift
deriving DecidableEq

/-- `DriftReport` dataclass. -/
structure DriftReport where
  timestamp : String
  has_drift : Bool
  severity : String
  feature_drifts : List (String × FeatureDrift)
  prediction_drift : Option (List (String × ℚ))
  recommendations : List Recommendation
deriving DecidableEq

/-- `Alert` dataclass; `details` holds the drifted feature names and the
report's recommendations, as in the source. -/
structure Alert where
  timestamp : String
  alert_type : String
  severity : String
  message : String
  details_features : List String
  details_recommendations : List Recommendation
  acknowledged : Bool
deriving DecidableEq

/-- `DriftMonitor` state.  `reference_file` and `alerts_file` model the
persisted contents of `reference_data.json` and `alerts.json`; the
`_save_*` helpers overwrite them with the in-memory state. -/
structure DriftMonitor where
  reference_data : List (String × List ℚ)
  alerts : List Alert
  reference_file : List (String × List ℚ)
  alerts_file : List Alert
deriving DecidableEq

/-- Association-list lookup, modelling `dict` access. -/
def alist_lookup {α : Type} (l : List (String × α)) (k : String) : Option α :=
  (l.find? fun kv => kv.1 = k).map Prod.snd

/-- The `severity_order` dict of `check_feature_drift` (default 0). -/
def severity_order (s : String) : Nat :=
  if s = "none" then 0
  else if s = "low" then 1
  else if s = "medium" then 2
  else if s = "high" then 3
  else 0

/-- The per-feature body of `DriftMonitor.check_feature_drift`: PSI, KS,
severity classification and the `feature_drifts[feature]` entry. -/
def eval_feature (be : NumBackend) (reference_values current_values : List ℚ) :
    FeatureDrift :=
  let psi := calculate_psi be.log reference_values current_values 10
  let ks := be.ks reference_values current_values
  let severity :=
    if PSI_HIGH ≤ psi then "high"
    else if PSI_MEDIUM ≤ psi then "medium"
    else if PSI_LOW ≤ psi then "low"
    else "none"
  { psi := psi
    ks_statistic := ks.1
    ks_pvalue := ks.2
    severity := severity
    drifted := decide (PSI_LOW ≤ psi ∨ ks.2 < KS_ALPHA)
    reference_mean := list_mean reference_values
    reference_std := be.sqrt (list_var reference_values)
    current_mean := list_mean current_values
    current_std := be.sqrt (list_var current_values) }

/-- The loop of `check_feature_drift`, with the three loop-carried
variables (`feature_drifts`, `report.has_drift`, `max_severity`) as
accumulators: features without reference data are skipped; entries are
appended in iteration order; `has_drift` and `max_severity` are updated
only for drifted features, exactly as in the source. -/
def drift_loop (be : NumBackend) (reference_data : List (String × List ℚ)) :
    List (String × List ℚ) → List (String × FeatureDrift) → Bool → String →
      List (String × FeatureDrift) × Bool × String
  | [], feature_drifts, has_drift, max_severity => (feature_drifts, has_drift, max_severity)
  | (feature, current_values) :: rest, feature_drifts, has_drift, max_severity =>
    match alist_lookup reference_data feature with
    | none => drift_loop be reference_data rest feature_drifts has_drift max_severity
    | some reference_values =>
      let d := eval_feature be reference_values current_values
      if d.drifted then
        drift_loop be reference_data rest (feature_drifts ++ [(feature, d)]) true
          (if severity_order max_severity < severity_order d.severity then d.severity
           else max_severity)
      else
        drift_loop be reference_data rest (feature_drifts ++ [(feature, d)]) has_drift
          max_severity

/-- `DriftMonitor._generate_recommendations`. -/
def generate_recommendations (feature_drifts : List (String × FeatureDrift)) :
    List Recommendation :=
  let drifted_features := feature_drifts.filter fun kv => kv.2.drifted
  if drifted_features.isEmpty then [.noDrift]
  else
    let high_drift := (drifted_features.filter fun kv => kv.2.severity = "high").map Prod.fst
    (if high_drift.isEmpty then [] else [.retrainHigh high_drift]) ++
    (drifted_features.filterMap fun kv =>
      let ref_mean := kv.2.reference_mean
      let cur_mean := kv.2.current_mean
      let shift : ℚ := if ref_mean ≠ 0 then (cur_mean - ref_mean) / ref_mean * 100 else 0
      if 20 < |shift| then some (.meanShift kv.1 shift ref_mean cur_mean) else none) ++
    (if 3 < drifted_features.length then [.reviewDataCollection] else [])

/-- `DriftMonitor.check_feature_drift`.  `now` is the wall-clock timestamp
the `DriftReport` dataclass default stamps on the report.  The method reads
`self.reference_data` and mutates nothing, so the monitor state is returned
unchanged — the frame claim below checks exactly this. -/
def check_feature_drift (be : NumBackend) (m : DriftMonitor) (now : String)
    (current_data : List (String × List ℚ)) : DriftReport × DriftMonitor :=
  let r := drift_loop be m.reference_data current_data [] false "none"
  ({ timestamp := now
     has_drift := r.2.1
     severity := r.2.2
     feature_drifts := r.1
     prediction_drift := none
     recommendations := if r.2.1 then generate_recommendations r.1 else [] }, m)

/-- `DriftMonitor.create_alert`: no-op on a drift-free report, otherwise
append an alert to `self.alerts` and persist via `_save_alerts`. -/
def create_alert (m : DriftMonitor) (now : String) (report : DriftReport) :
    Option Alert × DriftMonitor :=
  if ¬report.has_drift then (none, m)
  else
    let drifted := (report.feature_drifts.filter fun kv => kv.2.drifted).map Prod.fst
    let alert : Alert :=
      { timestamp := now
        alert_type := "drift"
        severity := report.severity
        message := "Drift detected in " ++ toString drifted.length ++ " feature(s): " ++
          String.intercalate ", " drifted
        details_features := drifted
        details_recommendations := report.recommendations
        acknowledged := false }
    let alerts := m.alerts ++ [alert]
    (some alert, { m with alerts := alerts, alerts_file := alerts })

/-! ## Model integrity — `ml/predict.py`

`verify_model_integrity(filepath)` reads the environment variable `ENV`,
the manifest file `model_hashes.json` (absent ⇒ `none`), the file's name
and its freshly computed SHA-256 digest (`compute_file_hash`, an external
input here).  `safe_load_model` raises `SecurityError` when verification
fails; raising is modelled with `Except`. -/

/-- `verify_model_integrity`. -/
def verify_model_integrity (env : String) (manifest : Option (List (String × String)))
    (filename actual_hash : String) : Bool :=
  match manifest with
  | none =>
    if env = "production" then false
    else true
  | some expected_hashes =>
    match alist_lookup expected_hashes filename with
    | none =>
      if env = "production" then false
      else true
    | some expected => actual_hash = expected

/-- `safe_load_model`: the successfully unpickled model is `model`
(joblib is external); a failed integrity check raises `SecurityError`. -/
def safe_load_model {Model : Type} (env : String)
    (manifest : Option (List (String × String))) (filename actual_hash : String)
    (model : Model) : Except String Model :=
  if ¬verify_model_integrity env manifest filename actual_hash then
    Except.error ("Model integrity verification failed: " ++ filename)
  else
    Except.ok model

/-! ## Lazy singleton predictor registry — `ml/server.py` (`PredictorManager`)

`get_predictor` uses double-checked locking:

```
if self._predictor is None:
    with self._lock:
        if self._predictor is None:
            self._predictor = DianaPredictor()
return self._predictor
```

The interleaving of `K` threads all calling `get_predictor` is modelled as
a small-step transition system.  Each thread is at one of five program
points; one step of one thread is atomic (single bytecode-level
read/write, or lock acquisition, or the whole constructor call — the
constructor runs under the lock, so its granularity does not matter).
`build_ok` says whether `DianaPredictor()` returns normally or raises;
the handle stored by the `n`-th constructor call is the number `n`, so
two distinct constructions yield distinct handles and "all callers get
the identical handle" is meaningful.  A thread that sees the constructor
raise finishes with result `none` (the exception propagates). -/

inductive PC where
  /-- before the unlocked `if self._predictor is None` check -/
  | start
  /-- waiting to acquire `self._lock` -/
  | waiting
  /-- holding the lock, before the locked re-check -/
  | locked
  /-- holding the lock, about to run `DianaPredictor()` -/
  | building
  /-- returned (`some h`) or propagated the constructor's exception (`none`) -/
  | done (result : Option Nat)
deriving DecidableEq

/-- Global state of the predictor manager plus the `K` client threads.
`counter` counts constructor invocations; `pred` is `self._predictor`. -/
structure Config (K : Nat) where
  pred : Option Nat
  lock : Option (Fin K)
  counter : Nat
  tstate : Fin K → PC

/-- One atomic step of thread `i`, if any is enabled. -/
def step_thread (build_ok : Bool) {K : Nat} (c : Config K) (i : Fin K) :
    Option (Config K) :=
  match c.tstate i with
  | .start =>
    match c.pred with
    | some h => some { c with tstate := Function.update c.tstate i (.done (some h)) }
    | none => some { c with tstate := Function.update c.tstate i .waiting }
  | .waiting =>
    match c.lock with
    | none => some { c with lock := some i, tstate := Function.update c.tstate i .locked }
    | some _ => none
  | .locked =>
    match c.pred with
    | some h =>
      some { c with lock := none, tstate := Function.update c.tstate i (.done (some h)) }
    | none => some { c with tstate := Function.update c.tstate i .building }
  | .building =>
    if build_ok then
      some { c with
        counter := c.counter + 1
        pred := some (c.counter + 1)
        lock := none
        tstate := Function.update c.tstate i (.done (some (c.counter + 1))) }
    else
      some { c with
        counter := c.counter + 1
        lock := none
        tstate := Function.update c.tstate i (.done none) }
  | .done _ => none

/-- The interleaving step relation: some thread takes an enabled step. -/
def Step (build_ok : Bool) {K : Nat} (c c' : Config K) : Prop :=
  ∃ i : Fin K, step_thread build_ok c i = some c'

/-- Reachability under interleaving. -/
def Reaches (build_ok : Bool) {K : Nat} : Config K → Config K → Prop :=
  Relation.ReflTransGen (Step build_ok)

/-- All `K` threads have returned from `get_predictor` (or propagated). -/
def Terminal {K : Nat} (c : Config K) : Prop :=
  ∀ i : Fin K, ∃ r, c.tstate i = .done r

/-- The initial state: nothing constructed, lock free, all threads about
to make their first call. -/
def init_config (K : Nat) : Config K :=
  { pred := none, lock := none, counter := 0, tstate := fun _ => .start }

/-! ## Specification-side definitions and proof infrastructure -/

/-- Written from the spec's words, for comparison with the loop above:
"the maximum per-feature severity under the ordering
none < low < medium < high" (left fold from `"none"`, keeping the earlier
value on ties). -/
def spec_max_severity (severities : List String) : String :=
  severities.foldl
    (fun acc s => if severity_order acc < severity_order s then s else acc) "none"

/-- Whether a thread of the registry model has returned. -/
def PC.isDone : PC → Bool
  | .done _ => true
  | _ => false

/-- Whether a thread holds the lock (between acquisition and release). -/
def PC.inRegion : PC → Prop
  | .locked => True
  | .building => True
  | _ => False

instance (pc : PC) : Decidable pc.inRegion := by
  cases pc <;> simp [PC.inRegion] <;> infer_instance

/-- Number of threads that have returned. -/
def done_count {K : Nat} (c : Config K) : Nat :=
  (Finset.univ.filter fun i => (c.tstate i).isDone = true).card

/-- Inductive invariant of the registry model when the constructor
succeeds: at most one construction ever happens, the stored handle is the
one produced by it, the lock holder is the only thread between the locked
re-check and the store, a builder only runs while nothing is stored, and
every returned caller got the unique handle. -/
def SInv {K : Nat} (c : Config K) : Prop :=
  c.counter ≤ 1 ∧
  c.pred = (if c.counter = 0 then none else some 1) ∧
  (∀ i : Fin K, (c.tstate i).inRegion → c.lock = some i) ∧
  (∀ i : Fin K, c.tstate i = .building → c.pred = none) ∧
  (∀ (i : Fin K) (r : Option Nat), c.tstate i = .done r → r = some 1 ∧ c.counter = 1)

/-- Inductive invariant when the constructor always raises: nothing is
ever stored, every returned caller propagated a failure, and the number of
constructor invocations equals the number of returned callers. -/
def FInv {K : Nat} (c : Config K) : Prop :=
  c.pred = none ∧
  (∀ i : Fin K, (c.tstate i).inRegion → c.lock = some i) ∧
  (∀ (i : Fin K) (r : Option Nat), c.tstate i = .done r → r = none) ∧
  c.counter = done_count c

/-! Concrete inputs used by the closed witness/counterexample theorems. -/

def cfg_active : ABTestConfig :=
  ⟨"t1", "v1", "v2", 3/10, "2024-01-01", none, "active", ""⟩

def cfg_paused : ABTestConfig :=
  ⟨"t2", "v1", "v2", 3/10, "2024-01-01", none, "paused", ""⟩

def sample_tests : String → Option ABTestConfig := fun n =>
  if n = "t1" then some cfg_active else if n = "t2" then some cfg_paused else none

/-- Agrees with `sample_tests` on `"t1"` but not elsewhere: a reloaded
configuration set with the same entry for the test under scrutiny. -/
def sample_tests2 : String → Option ABTestConfig := fun n =>
  if n = "t1" then some cfg_active else none

def sample_digest : String → Nat := String.length

def sample_record : PredictionRecord :=
  ⟨"t1", "v1", "h1", [("bmi", 28)], [("prediction", "Normal")], "2024-01-01", none⟩

def sample_rl : RateLimiter := ⟨2, 1, fun _ => [0], fun _ => [0]⟩

def sample_backend : NumBackend := ⟨fun _ => 0, fun _ => 0, fun _ _ => (0, 1)⟩

def sample_monitor : DriftMonitor := ⟨[("bmi", [0, 1])], [], [("bmi", [0, 1])], []⟩

def sample_fd_drifted : FeatureDrift := ⟨3/10, 0, 1, "high", true, 1, 0, 2, 0⟩

def sample_report_drift : DriftReport :=
  ⟨"ts1", true, "high", [("bmi", sample_fd_drifted)], none, []⟩

def sample_report_nodrift : DriftReport := ⟨"ts2", false, "none", [], none, []⟩

def sample_manifest : List (String × String) := [("scaler.joblib", "abc123")]

/-- The failure-mode interleaving for two first-callers: thread 0 runs
`get_predictor` to completion (its construction raises), then thread 1
does the same.  The constructor runs twice. -/
def cex1 : Config 2 := ⟨none, none, 0, Function.update (init_config 2).tstate 0 PC.waiting⟩
def cex2 : Config 2 := ⟨none, some 0, 0, Function.update cex1.tstate 0 PC.locked⟩
def cex3 : Config 2 := ⟨none, some 0, 0, Function.update cex2.tstate 0 PC.building⟩
def cex4 : Config 2 := ⟨none, none, 1, Function.update cex3.tstate 0 (PC.done none)⟩
def cex5 : Config 2 := ⟨none, none, 1, Function.update cex4.tstate 1 PC.waiting⟩
def cex6 : Config 2 := ⟨none, some 1, 1, Function.update cex5.tstate 1 PC.locked⟩
def cex7 : Config 2 := ⟨none, some 1, 1, Function.update cex6.tstate 1 PC.building⟩
def cex8 : Config 2 := ⟨none, none, 2, Function.update cex7.tstate 1 (PC.done none)⟩

/-- A success-mode run of a single first-caller, for the witness. -/
def wex1 : Config 1 := ⟨none, none, 0, Function.update (init_config 1).tstate 0 PC.waiting⟩
def wex2 : Config 1 := ⟨none, some 0, 0, Function.update wex1.tstate 0 PC.locked⟩
def wex3 : Config 1 := ⟨none, some 0, 0, Function.update wex2.tstate 0 PC.building⟩
def wex4 : Config 1 := ⟨some 1, none, 1, Function.update wex3.tstate 0 (PC.done (some 1))⟩

/-! ## Theorems -/

/-- Claim C1: with the stored test configurations fixed (in particular the
entry for `t` unchanged), `route_request` returns the same
`(model_version, arm)` pair on every call: it is a pure function of the
subject and the persisted configuration.  The embedding is stateless
because the source method reads only `self._tests` and its arguments, so
two calls against any two manager states that hold the same configuration
for `t` — before or after other calls, or across a restart that reloads
the same data — agree. -/
theorem route_request_deterministic (md5hex : String → Nat)
    (tests1 tests2 : String → Option ABTestConfig) (s t : String)
    (hcfg : tests1 t = tests2 t) :
    route_request md5hex tests1 s t = route_request md5hex tests2 s t := by
  unfold route_request
  rw [hcfg]

theorem route_request_deterministic_witness :
    sample_tests "t1" = sample_tests2 "t1" ∧
    route_request sample_digest sample_tests "patient_042" "t1" =
      route_request sample_digest sample_tests2 "patient_042" "t1" :=
  ⟨rfl,
   route_request_deterministic sample_digest sample_tests sample_tests2
     "patient_042" "t1" rfl⟩

/-- On an active test, `route_request` reduces to the bucket comparison. -/
theorem route_request_eq_active (md5hex : String → Nat)
    (tests : String → Option ABTestConfig) (s t : String) (cfg : ABTestConfig)
    (hlk : tests t = some cfg) (hact : cfg.status = "active") :
    route_request md5hex tests s t =
      if ((md5hex s % 100 : Nat) : ℚ) / 100 < cfg.traffic_split then
        (cfg.challenger_version, "challenger")
      else
        (cfg.baseline_version, "baseline") := by
  unfold route_request
  rw [hlk]
  simp [hact]

/-- Claim C2: for an active test, the subject's digest is reduced to the
bucket fraction `(md5hex s % 100) / 100 ∈ [0,1)`, and the request routes to
`(challenger_version, "challenger")` iff that fraction is strictly below
`traffic_split`, else to `(baseline_version, "baseline")`. -/
theorem route_request_active_split (md5hex : String → Nat)
    (tests : String → Option ABTestConfig) (s t : String) (cfg : ABTestConfig)
    (hlk : tests t = some cfg) (hact : cfg.status = "active") :
    0 ≤ ((md5hex s % 100 : Nat) : ℚ) / 100 ∧
    ((md5hex s % 100 : Nat) : ℚ) / 100 < 1 ∧
    (route_request md5hex tests s t = (cfg.challenger_version, "challenger") ↔
      ((md5hex s % 100 : Nat) : ℚ) / 100 < cfg.traffic_split) ∧
    (¬((md5hex s % 100 : Nat) : ℚ) / 100 < cfg.traffic_split →
      route_request md5hex tests s t = (cfg.baseline_version, "baseline")) := by
  rw [route_request_eq_active md5hex tests s t cfg hlk hact]
  refine ⟨by positivity, ?_, ?_, ?_⟩
  · rw [div_lt_one (by norm_num)]
    exact_mod_cast Nat.mod_lt _ (by norm_num)
  · by_cases hb : ((md5hex s % 100 : Nat) : ℚ) / 100 < cfg.traffic_split
    · simp [hb]
    · rw [if_neg hb]
      exact iff_of_false (fun h => by simpa using congrArg Prod.snd h) hb
  · intro hb
    rw [if_neg hb]

theorem route_request_active_split_witness :
    sample_tests "t1" = some cfg_active ∧ cfg_active.status = "active" ∧
    (route_request sample_digest sample_tests "patient_042" "t1" =
        (cfg_active.challenger_version, "challenger") ↔
      ((sample_digest "patient_042" % 100 : Nat) : ℚ) / 100 < cfg_active.traffic_split) :=
  ⟨rfl, rfl,
   (route_request_active_split sample_digest sample_tests "patient_042" "t1"
     cfg_active rfl rfl).2.2.1⟩

/-- Claim C3: when the test is unknown or not active, `route_request`
returns the baseline arm — `(baseline_version, "baseline")` for an
existing inactive test and the `("default", "baseline")` placeholder for
an unknown one.  The embedding is a total function, matching the fact
that no path of the source raises. -/
theorem route_request_failsafe (md5hex : String → Nat)
    (tests : String → Option ABTestConfig) (s t : String)
    (h : ∀ cfg, tests t = some cfg → cfg.status ≠ "active") :
    route_request md5hex tests s t =
      ((match tests t with
        | some cfg => cfg.baseline_version
        | none => "default"), "baseline") := by
  unfold route_request
  cases htest : tests t with
  | none => rfl
  | some cfg => simp [h cfg htest]

theorem route_request_failsafe_witness :
    (∀ cfg, sample_tests "t2" = some cfg → cfg.status ≠ "active") ∧
    (∀ cfg, sample_tests "nonexistent-test" = some cfg → cfg.status ≠ "active") ∧
    route_request sample_digest sample_tests "patient_042" "t2" =
      (cfg_paused.baseline_version, "baseline") ∧
    route_request sample_digest sample_tests "patient_042" "nonexistent-test" =
      ("default", "baseline") := by
  have h2 : ∀ cfg, sample_tests "t2" = some cfg → cfg.status ≠ "active" := by
    intro cfg hcfg
    have hp : some cfg_paused = some cfg := hcfg
    cases Option.some.inj hp
    intro hact
    exact absurd hact (by decide)
  have hn : ∀ cfg, sample_tests "nonexistent-test" = some cfg → cfg.status ≠ "active" := by
    intro cfg hcfg
    have hp : (none : Option ABTestConfig) = some cfg := hcfg
    cases hp
  exact ⟨h2, hn,
    route_request_failsafe sample_digest sample_tests "patient_042" "t2" h2,
    route_request_failsafe sample_digest sample_tests "patient_042" "nonexistent-test" hn⟩

/-- The loop of `record_outcome` updates every matching unresolved record. -/
theorem record_outcome_loop_map (h o : String) (l : List PredictionRecord) :
    (record_outcome_loop h o l).2 = l.map (outcome_update h o) := by
  induction l with
  | nil => rfl
  | cons p rest ih =>
    by_cases hp : p.patient_hash = h ∧ p.actual_outcome = none
    · simp only [record_outcome_loop, if_pos hp, List.map_cons, ih]
      congr 1
      simp [outcome_update, hp]
    · simp only [record_outcome_loop, if_neg hp, List.map_cons, ih]
      congr 1
      simp [outcome_update, hp]

/-- The loop's count is the number of matching unresolved records. -/
theorem record_outcome_loop_count (h o : String) (l : List PredictionRecord) :
    (record_outcome_loop h o l).1 =
      (l.filter fun p => decide (p.patient_hash = h ∧ p.actual_outcome = none)).length := by
  induction l with
  | nil => rfl
  | cons p rest ih =>
    unfold record_outcome_loop
    by_cases hp : p.patient_hash = h ∧ p.actual_outcome = none
    · simp [hp, ih]
    · simp [hp, ih]

/-- When no record matches unresolved, the loop is the identity. -/
theorem record_outcome_loop_of_no_match (h o : String) (l : List PredictionRecord)
    (hl : ∀ p ∈ l, ¬(p.patient_hash = h ∧ p.actual_outcome = none)) :
    record_outcome_loop h o l = (0, l) := by
  induction l with
  | nil => rfl
  | cons p rest ih =>
    unfold record_outcome_loop
    rw [ih fun q hq => hl q (List.mem_cons_of_mem p hq)]
    simp [hl p (List.mem_cons_self p rest)]

/-- An updated record never matches unresolved again. -/
theorem outcome_update_no_match (h o : String) (p : PredictionRecord) :
    ¬((outcome_update h o p).patient_hash = h ∧ (outcome_update h o p).actual_outcome = none) := by
  unfold outcome_update
  by_cases hp : p.patient_hash = h ∧ p.actual_outcome = none
  · rw [if_pos hp]
    simp
  · rw [if_neg hp]
    exact hp

/-- Claim C8: `record_outcome` back-fills `actual_outcome` on exactly the
stored records whose `patient_hash` matches the subject's digest and whose
outcome is unset — all of them — returns the number of records updated,
and is idempotent: an immediately repeated identical call updates nothing
and returns 0. -/
theorem record_outcome_spec (sha256_16 : String → String)
    (predictions : List PredictionRecord) (patient_id actual_outcome : String) :
    (record_outcome sha256_16 predictions patient_id actual_outcome).2 =
      predictions.map (outcome_update (sha256_16 patient_id) actual_outcome) ∧
    (record_outcome sha256_16 predictions patient_id actual_outcome).1 =
      (predictions.filter fun p =>
        decide (p.patient_hash = sha256_16 patient_id ∧ p.actual_outcome = none)).length ∧
    record_outcome sha256_16
        (record_outcome sha256_16 predictions patient_id actual_outcome).2
        patient_id actual_outcome =
      (0, (record_outcome sha256_16 predictions patient_id actual_outcome).2) := by
  refine ⟨record_outcome_loop_map _ _ _, record_outcome_loop_count _ _ _, ?_⟩
  unfold record_outcome
  rw [record_outcome_loop_map]
  apply record_outcome_loop_of_no_match
  intro p hp
  rcases List.mem_map.1 hp with ⟨q, _, rfl⟩
  exact outcome_update_no_match _ _ q

/-- Each summand of the PSI sum over a self-zipped list vanishes. -/
theorem psi_sum_zip_self (log : ℚ → ℚ) (l : List ℚ) :
    ((l.zip l).map fun pr => (pr.1 - pr.2) * log (pr.1 / pr.2)).sum = 0 := by
  induction l with
  | nil => rfl
  | cons x xs ih => simp [ih]

/-- Claim C9: comparing any non-degenerate distribution against itself,
`calculate_psi(X, X)` is (exactly, in exact arithmetic) 0: the smoothed
reference and current bin proportions coincide, so every summand
`(cur_p - ref_p) * log (cur_p / ref_p)` vanishes.  This holds for every
log backend, and for the source's default of 10 bins. -/
theorem calculate_psi_self (log : ℚ → ℚ) (X : List ℚ) (_hX : X ≠ []) :
    calculate_psi log X X 10 = 0 := by
  unfold calculate_psi
  exact psi_sum_zip_self log _

theorem calculate_psi_self_witness :
    ([(3 : ℚ), 5, 4] ≠ []) ∧ calculate_psi (fun q => q + 7) [3, 5, 4] [3, 5, 4] 10 = 0 :=
  ⟨by simp, calculate_psi_self (fun q => q + 7) [3, 5, 4] (by simp)⟩

/-- Claim C4: each `is_allowed` call first purges timestamps beyond the
60-second and 1-second horizons, then checks both window occupancy counts
against their limits before recording anything.  If the minute (resp.
second) count is at or above its limit, the call returns `false` with a
reason naming that window and records no timestamp (the purge is kept);
otherwise the current time is appended to both windows and the call
returns `true`.  Consequently a client whose 1-second window holds
`requests_per_second` admitted timestamps is rejected, and once both
windows have elapsed requests are admitted again. -/
theorem is_allowed_spec (rl : RateLimiter) (c : String) (now : ℚ) :
    (rl.requests_per_minute ≤ (cleanup_old (rl.minute_requests c) 60 now).length →
      (is_allowed rl c now).1 = (false, some "rate limit exceeded (per minute)") ∧
      (is_allowed rl c now).2.minute_requests c = cleanup_old (rl.minute_requests c) 60 now ∧
      (is_allowed rl c now).2.second_requests c = cleanup_old (rl.second_requests c) 1 now) ∧
    ((cleanup_old (rl.minute_requests c) 60 now).length < rl.requests_per_minute →
      rl.requests_per_second ≤ (cleanup_old (rl.second_requests c) 1 now).length →
      (is_allowed rl c now).1 = (false, some "rate limit exceeded (per second)") ∧
      (is_allowed rl c now).2.minute_requests c = cleanup_old (rl.minute_requests c) 60 now ∧
      (is_allowed rl c now).2.second_requests c = cleanup_old (rl.second_requests c) 1 now) ∧
    ((cleanup_old (rl.minute_requests c) 60 now).length < rl.requests_per_minute →
      (cleanup_old (rl.second_requests c) 1 now).length < rl.requests_per_second →
      (is_allowed rl c now).1 = (true, none) ∧
      (is_allowed rl c now).2.minute_requests c =
        cleanup_old (rl.minute_requests c) 60 now ++ [now] ∧
      (is_allowed rl c now).2.second_requests c =
        cleanup_old (rl.second_requests c) 1 now ++ [now]) ∧
    (rl.requests_per_second ≤ (rl.second_requests c).length →
      (∀ ts ∈ rl.second_requests c, now - 1 < ts) →
      (is_allowed rl c now).1.1 = false) ∧
    (∀ later : ℚ, 0 < rl.requests_per_minute → 0 < rl.requests_per_second →
      (∀ ts ∈ rl.minute_requests c, ts ≤ later - 60) →
      (∀ ts ∈ rl.second_requests c, ts ≤ later - 1) →
      (is_allowed rl c later).1.1 = true) := by
  refine ⟨?_, ?_, ?_, ?_, ?_⟩
  · intro hm
    unfold is_allowed
    rw [if_pos hm]
    exact ⟨rfl, Function.update_same c _ _, Function.update_same c _ _⟩
  · intro hm hs
    unfold is_allowed
    rw [if_neg (not_le.2 hm), if_pos hs]
    exact ⟨rfl, Function.update_same c _ _, Function.update_same c _ _⟩
  · intro hm hs
    unfold is_allowed
    rw [if_neg (not_le.2 hm), if_neg (not_le.2 hs)]
    exact ⟨rfl, Function.update_same c _ _, Function.update_same c _ _⟩
  · intro hfull hrecent
    have hkeep : cleanup_old (rl.second_requests c) 1 now = rl.second_requests c := by
      unfold cleanup_old
      exact List.filter_eq_self.2 fun ts hts => decide_eq_true (hrecent ts hts)
    unfold is_allowed
    by_cases hm : rl.requests_per_minute ≤ (cleanup_old (rl.minute_requests c) 60 now).length
    · rw [if_pos hm]
    · rw [if_neg hm, if_pos (by rw [hkeep]; exact hfull)]
  · intro later hm hs hold60 hold1
    have hm0 : cleanup_old (rl.minute_requests c) 60 later = [] := by
      unfold cleanup_old
      exact List.filter_eq_nil_iff.2 fun ts hts => by
        simpa using not_lt.2 (hold60 ts hts)
    have hs0 : cleanup_old (rl.second_requests c) 1 later = [] := by
      unfold cleanup_old
      exact List.filter_eq_nil_iff.2 fun ts hts => by
        simpa using not_lt.2 (hold1 ts hts)
    unfold is_allowed
    rw [hm0, hs0]
    rw [if_neg (by simpa using Nat.pos_iff_ne_zero.1 hm),
      if_neg (by simpa using Nat.pos_iff_ne_zero.1 hs)]

theorem is_allowed_spec_witness :
    (is_allowed sample_rl "key1" (1/2)).1 =
      (false, some "rate limit exceeded (per second)") ∧
    (is_allowed sample_rl "key1" 61).1.1 = true := by
  have h := is_allowed_spec sample_rl "key1" (1/2)
  refine ⟨(h.2.1 (by norm_num [sample_rl, cleanup_old])
      (by norm_num [sample_rl, cleanup_old])).1, ?_⟩
  exact (is_allowed_spec sample_rl "key1" 61).2.2.2.2 61 (by norm_num [sample_rl])
    (by norm_num [sample_rl])
    (by intro ts hts; norm_num [sample_rl] at hts; norm_num [hts])
    (by intro ts hts; norm_num [sample_rl] at hts; norm_num [hts])

/-- Claim C7: model loading verifies integrity with mode-dependent
strictness.  In `ENV=production` a missing checksum manifest or a filename
absent from it fails verification, so `safe_load_model` raises
`SecurityError`; in any other (development) mode the same conditions let
the load proceed (the source only logs a warning).  A checksum mismatch
fails verification — and raises — in every mode, and a matching checksum
loads in every mode. -/
theorem verify_model_integrity_spec {Model : Type} (env : String)
    (expected_hashes : List (String × String)) (filename actual_hash expected : String)
    (model : Model) :
    (verify_model_integrity env none filename actual_hash = (env ≠ "production") ∧
      safe_load_model env none filename actual_hash model =
        (if env = "production" then
          Except.error ("Model integrity verification failed: " ++ filename)
        else Except.ok model)) ∧
    (alist_lookup expected_hashes filename = none →
      verify_model_integrity env (some expected_hashes) filename actual_hash =
        (env ≠ "production") ∧
      safe_load_model env (some expected_hashes) filename actual_hash model =
        (if env = "production" then
          Except.error ("Model integrity verification failed: " ++ filename)
        else Except.ok model)) ∧
    (alist_lookup expected_hashes filename = some expected → actual_hash ≠ expected →
      verify_model_integrity env (some expected_hashes) filename actual_hash = false ∧
      safe_load_model env (some expected_hashes) filename actual_hash model =
        Except.error ("Model integrity verification failed: " ++ filename)) ∧
    (alist_lookup expected_hashes filename = some expected → actual_hash = expected →
      verify_model_integrity env (some expected_hashes) filename actual_hash = true ∧
      safe_load_model env (some expected_hashes) filename actual_hash model =
        Except.ok model) := by
  refine ⟨?_, ?_, ?_, ?_⟩
  · constructor
    · unfold verify_model_integrity
      by_cases he : env = "production" <;> simp [he]
    · unfold safe_load_model verify_model_integrity
      by_cases he : env = "production" <;> simp [he]
  · intro hlk
    constructor
    · unfold verify_model_integrity
      by_cases he : env = "production" <;> simp [hlk, he]
    · unfold safe_load_model verify_model_integrity
      by_cases he : env = "production" <;> simp [hlk, he]
  · intro hlk hmismatch
    constructor
    · unfold verify_model_integrity
      simp [hlk, hmismatch]
    · unfold safe_load_model verify_model_integrity
      simp [hlk, hmismatch]
  · intro hlk hmatch
    constructor
    · unfold verify_model_integrity
      simp [hlk, hmatch]
    · unfold safe_load_model verify_model_integrity
      simp [hlk, hmatch]

theorem verify_model_integrity_spec_witness :
    (safe_load_model "production" (none : Option (List (String × String)))
        "scaler.joblib" "abc123" (37 : Nat) =
      Except.error "Model integrity verification failed: scaler.joblib") ∧
    (safe_load_model "development" (none : Option (List (String × String)))
        "scaler.joblib" "abc123" (37 : Nat) = Except.ok 37) ∧
    (safe_load_model "development" (some sample_manifest)
        "scaler.joblib" "wrong00" (37 : Nat) =
      Except.error "Model integrity verification failed: scaler.joblib") ∧
    (safe_load_model "production" (some sample_manifest)
        "scaler.joblib" "abc123" (37 : Nat) = Except.ok 37) := by
  have hlk : alist_lookup sample_manifest "scaler.joblib" = some "abc123" := rfl
  refine ⟨?_, ?_, ?_, ?_⟩
  · have h := (verify_model_integrity_spec "production" sample_manifest
      "scaler.joblib" "abc123" "abc123" (37 : Nat)).1.2
    simpa using h
  · have h := (verify_model_integrity_spec "development" sample_manifest
      "scaler.joblib" "abc123" "abc123" (37 : Nat)).1.2
    simpa using h
  · exact ((verify_model_integrity_spec "development" sample_manifest
      "scaler.joblib" "wrong00" "abc123" (37 : Nat)).2.2.1 hlk (by decide)).2
  · exact ((verify_model_integrity_spec "production" sample_manifest
      "scaler.joblib" "abc123" "abc123" (37 : Nat)).2.2.2 hlk rfl).2

/-- Claim C10: `check_feature_drift` is read-only on the monitor: the
stored reference distributions, the in-memory alert list, and the
persisted reference/alert file contents are all returned unchanged and
only a fresh report is produced (the source method contains no assignment
to `self` and no `_save_*` call).  An alert is appended to `self.alerts`
and persisted to the alerts file only by an explicit `create_alert` call,
which does so exactly when the report has drift and is a no-op
otherwise. -/
theorem check_feature_drift_frame (be : NumBackend) (m : DriftMonitor) (now : String)
    (current_data : List (String × List ℚ)) (report : DriftReport) :
    (check_feature_drift be m now current_data).2 = m ∧
    (report.has_drift = false → create_alert m now report = (none, m)) ∧
    (report.has_drift = true →
      ∃ a : Alert, create_alert m now report =
        (some a, { m with alerts := m.alerts ++ [a], alerts_file := m.alerts ++ [a] })) := by
  refine ⟨rfl, ?_, ?_⟩
  · intro hnd
    unfold create_alert
    rw [if_pos (by simp [hnd])]
  · intro hd
    unfold create_alert
    rw [if_neg (by simp [hd])]
    exact ⟨_, rfl⟩

theorem check_feature_drift_frame_witness :
    (check_feature_drift sample_backend sample_monitor "ts0"
        [("bmi", [0, 1]), ("unseen", [5])]).2 = sample_monitor ∧
    create_alert sample_monitor "ts2" sample_report_nodrift = (none, sample_monitor) ∧
    (∃ a : Alert, create_alert sample_monitor "ts1" sample_report_drift =
      (some a, { sample_monitor with
        alerts := sample_monitor.alerts ++ [a]
        alerts_file := sample_monitor.alerts ++ [a] })) :=
  ⟨(check_feature_drift_frame sample_backend sample_monitor "ts0"
      [("bmi", [0, 1]), ("unseen", [5])] sample_report_nodrift).1,
   (check_feature_drift_frame sample_backend sample_monitor "ts2"
      [("bmi", [0, 1]), ("unseen", [5])] sample_report_nodrift).2.1 rfl,
   (check_feature_drift_frame sample_backend sample_monitor "ts1"
      [("bmi", [0, 1]), ("unseen", [5])] sample_report_drift).2.2 rfl⟩

/-- `eval_feature` classifies severity by the PSI thresholds and marks a
feature drifted iff PSI ≥ 0.1 or the KS p-value is below 0.05. -/
theorem eval_feature_thresholds (be : NumBackend) (rv cv : List ℚ) :
    ((eval_feature be rv cv).psi < PSI_LOW → (eval_feature be rv cv).severity = "none") ∧
    (PSI_LOW ≤ (eval_feature be rv cv).psi → (eval_feature be rv cv).psi < PSI_MEDIUM →
      (eval_feature be rv cv).severity = "low") ∧
    (PSI_MEDIUM ≤ (eval_feature be rv cv).psi → (eval_feature be rv cv).psi < PSI_HIGH →
      (eval_feature be rv cv).severity = "medium") ∧
    (PSI_HIGH ≤ (eval_feature be rv cv).psi → (eval_feature be rv cv).severity = "high") ∧
    ((eval_feature be rv cv).drifted = true ↔
      PSI_LOW ≤ (eval_feature be rv cv).psi ∨ (eval_feature be rv cv).ks_pvalue < KS_ALPHA) := by
  unfold eval_feature
  simp only
  refine ⟨?_, ?_, ?_, ?_, by simp⟩
  · intro h
    rw [if_neg (not_le.2 (h.trans_le (by norm_num [PSI_LOW, PSI_HIGH]))),
      if_neg (not_le.2 (h.trans_le (by norm_num [PSI_LOW, PSI_MEDIUM]))),
      if_neg (not_le.2 h)]
  · intro h1 h2
    rw [if_neg (not_le.2 (h2.trans_le (by norm_num [PSI_MEDIUM, PSI_HIGH]))),
      if_neg (not_le.2 h2), if_pos h1]
  · intro h1 h2
    rw [if_neg (not_le.2 h2), if_pos h1]
  · intro h
    rw [if_pos h]

/-- A feature not marked drifted has severity `"none"`. -/
theorem eval_feature_not_drifted (be : NumBackend) (rv cv : List ℚ)
    (h : ¬(eval_feature be rv cv).drifted = true) :
    (eval_feature be rv cv).severity = "none" := by
  have hiff := (eval_feature_thresholds be rv cv).2.2.2.2
  have hpsi : (eval_feature be rv cv).psi < PSI_LOW := by
    by_contra hp
    exact h (hiff.2 (Or.inl (not_lt.1 hp)))
  exact (eval_feature_thresholds be rv cv).1 hpsi

/-- The entries accumulated by the drift loop: one per feature of the
current batch that has reference data, in order, independent of which
branch of the drifted test is taken. -/
theorem drift_loop_entries_eq (be : NumBackend) (ref : List (String × List ℚ)) :
    ∀ (cur : List (String × List ℚ)) (fd : List (String × FeatureDrift))
      (hd : Bool) (ms : String),
      (drift_loop be ref cur fd hd ms).1 =
        fd ++ cur.filterMap fun kv =>
          (alist_lookup ref kv.1).map fun rv => (kv.1, eval_feature be rv kv.2)
  | [], fd, hd, ms => by simp [drift_loop]
  | (f, cv) :: rest, fd, hd, ms => by
    cases hlk : alist_lookup ref f with
    | none =>
      simp only [drift_loop, hlk, List.filterMap_cons, Option.map_none']
      exact drift_loop_entries_eq be ref rest fd hd ms
    | some rv =>
      simp only [drift_loop, hlk, List.filterMap_cons, Option.map_some']
      by_cases hdr : (eval_feature be rv cv).drifted = true
      · rw [if_pos hdr, drift_loop_entries_eq be ref rest _ _ _]
        simp
      · rw [if_neg hdr, drift_loop_entries_eq be ref rest _ _ _]
        simp

/-- Keys of the loop's entries are the current features that have
reference data. -/
theorem drift_keys_of_entries (be : NumBackend) (ref : List (String × List ℚ)) :
    ∀ cur : List (String × List ℚ),
      (cur.filterMap fun kv =>
        (alist_lookup ref kv.1).map fun rv => (kv.1, eval_feature be rv kv.2)).map Prod.fst =
      (cur.filter fun kv => (alist_lookup ref kv.1).isSome).map Prod.fst
  | [] => rfl
  | kv :: rest => by
    cases hlk : alist_lookup ref kv.1 with
    | none =>
      simp [List.filterMap_cons, List.filter_cons, hlk, drift_keys_of_entries be ref rest]
    | some rv =>
      simp [List.filterMap_cons, List.filter_cons, hlk, drift_keys_of_entries be ref rest]

/-- The loop's `has_drift` flag is the disjunction of the entries'
`drifted` flags, given the invariant holds for the accumulators. -/
theorem drift_loop_has_drift (be : NumBackend) (ref : List (String × List ℚ)) :
    ∀ (cur : List (String × List ℚ)) (fd : List (String × FeatureDrift))
      (hd : Bool) (ms : String),
      hd = fd.any (fun kv => kv.2.drifted) →
      (drift_loop be ref cur fd hd ms).2.1 =
        (drift_loop be ref cur fd hd ms).1.any fun kv => kv.2.drifted
  | [], fd, hd, ms, hinv => by simpa [drift_loop] using hinv
  | (f, cv) :: rest, fd, hd, ms, hinv => by
    cases hlk : alist_lookup ref f with
    | none =>
      simp only [drift_loop, hlk]
      exact drift_loop_has_drift be ref rest fd hd ms hinv
    | some rv =>
      simp only [drift_loop, hlk]
      by_cases hdr : (eval_feature be rv cv).drifted = true
      · rw [if_pos hdr]
        exact drift_loop_has_drift be ref rest _ _ _ (by simp [hdr])
      · rw [if_neg hdr]
        have hfalse : (eval_feature be rv cv).drifted = false := by simpa using hdr
        exact drift_loop_has_drift be ref rest _ _ _
          (by rw [List.any_append]; simpa [hfalse] using hinv)

/-- Appending one severity to the fold takes one more max step. -/
theorem spec_max_severity_append (l : List String) (s : String) :
    spec_max_severity (l ++ [s]) =
      if severity_order (spec_max_severity l) < severity_order s then s
      else spec_max_severity l := by
  unfold spec_max_severity
  rw [List.foldl_append]
  rfl

/-- The loop's `max_severity` is the spec's maximum of the entries'
severities, given the invariant holds for the accumulators. -/
theorem drift_loop_max_severity (be : NumBackend) (ref : List (String × List ℚ)) :
    ∀ (cur : List (String × List ℚ)) (fd : List (String × FeatureDrift))
      (hd : Bool) (ms : String),
      ms = spec_max_severity (fd.map fun kv => kv.2.severity) →
      (drift_loop be ref cur fd hd ms).2.2 =
        spec_max_severity ((drift_loop be ref cur fd hd ms).1.map fun kv => kv.2.severity)
  | [], fd, hd, ms, hinv => by simpa [drift_loop] using hinv
  | (f, cv) :: rest, fd, hd, ms, hinv => by
    cases hlk : alist_lookup ref f with
    | none =>
      simp only [drift_loop, hlk]
      exact drift_loop_max_severity be ref rest fd hd ms hinv
    | some rv =>
      simp only [drift_loop, hlk]
      by_cases hdr : (eval_feature be rv cv).drifted = true
      · rw [if_pos hdr]
        refine drift_loop_max_severity be ref rest _ _ _ ?_
        rw [List.map_append, List.map_cons, List.map_nil, spec_max_severity_append, hinv]
      · rw [if_neg hdr]
        refine drift_loop_max_severity be ref rest _ _ _ ?_
        rw [List.map_append, List.map_cons, List.map_nil, spec_max_severity_append,
          eval_feature_not_drifted be rv cv hdr, ← hinv]
        simp [severity_order]

/-- Claim C6: `check_feature_drift` evaluates exactly the features present
in both the current batch and the stored reference; each entry's severity
follows the PSI thresholds (`< 0.1` none, `[0.1, 0.2)` low, `[0.2, 0.25)`
medium, `≥ 0.25` high) and its `drifted` flag holds iff PSI ≥ 0.1 or the
KS p-value is below 0.05; the report's overall severity is the maximum
per-feature severity under none < low < medium < high; and `has_drift` is
true iff some evaluated feature is drifted. -/
theorem check_feature_drift_spec (be : NumBackend) (m : DriftMonitor) (now : String)
    (current_data : List (String × List ℚ)) :
    ((check_feature_drift be m now current_data).1.feature_drifts.map Prod.fst =
      (current_data.filter fun kv =>
        (alist_lookup m.reference_data kv.1).isSome).map Prod.fst) ∧
    (∀ kv ∈ (check_feature_drift be m now current_data).1.feature_drifts,
      (kv.2.psi < PSI_LOW → kv.2.severity = "none") ∧
      (PSI_LOW ≤ kv.2.psi → kv.2.psi < PSI_MEDIUM → kv.2.severity = "low") ∧
      (PSI_MEDIUM ≤ kv.2.psi → kv.2.psi < PSI_HIGH → kv.2.severity = "medium") ∧
      (PSI_HIGH ≤ kv.2.psi → kv.2.severity = "high") ∧
      (kv.2.drifted = true ↔ PSI_LOW ≤ kv.2.psi ∨ kv.2.ks_pvalue < KS_ALPHA)) ∧
    ((check_feature_drift be m now current_data).1.severity =
      spec_max_severity ((check_feature_drift be m now current_data).1.feature_drifts.map
        fun kv => kv.2.severity)) ∧
    ((check_feature_drift be m now current_data).1.has_drift =
      ((check_feature_drift be m now current_data).1.feature_drifts.any
        fun kv => kv.2.drifted)) := by
  have hfd : (check_feature_drift be m now current_data).1.feature_drifts =
      current_data.filterMap fun kv =>
        (alist_lookup m.reference_data kv.1).map fun rv => (kv.1, eval_feature be rv kv.2) := by
    have h := drift_loop_entries_eq be m.reference_data current_data [] false "none"
    simpa using h
  refine ⟨?_, ?_, ?_, ?_⟩
  · rw [hfd]
    exact drift_keys_of_entries be m.reference_data current_data
  · intro kv hkv
    rw [hfd] at hkv
    rcases List.mem_filterMap.1 hkv with ⟨kv0, _, hmap⟩
    rcases Option.map_eq_some'.1 hmap with ⟨rv, _, hkveq⟩
    rw [← hkveq]
    exact eval_feature_thresholds be rv kv0.2
  · exact drift_loop_max_severity be m.reference_data current_data [] false "none" rfl
  · exact drift_loop_has_drift be m.reference_data current_data [] false "none" rfl

theorem check_feature_drift_spec_witness :
    ("bmi", eval_feature sample_backend [0, 1] [0, 1]) ∈
      (check_feature_drift sample_backend sample_monitor "ts0"
        [("bmi", [0, 1]), ("x", [1])]).1.feature_drifts ∧
    ((eval_feature sample_backend [0, 1] [0, 1]).psi < PSI_LOW →
      (eval_feature sample_backend [0, 1] [0, 1]).severity = "none") ∧
    ((eval_feature sample_backend [0, 1] [0, 1]).drifted = true ↔
      PSI_LOW ≤ (eval_feature sample_backend [0, 1] [0, 1]).psi ∨
        (eval_feature sample_backend [0, 1] [0, 1]).ks_pvalue < KS_ALPHA) := by
  have hfd : (check_feature_drift sample_backend sample_monitor "ts0"
      [("bmi", [0, 1]), ("x", [1])]).1.feature_drifts =
      [("bmi", eval_feature sample_backend [0, 1] [0, 1])] := by
    have h := drift_loop_entries_eq sample_backend sample_monitor.reference_data
      [("bmi", [0, 1]), ("x", [1])] [] false "none"
    simpa [alist_lookup, sample_monitor] using h
  have hmem : ("bmi", eval_feature sample_backend [0, 1] [0, 1]) ∈
      (check_feature_drift sample_backend sample_monitor "ts0"
        [("bmi", [0, 1]), ("x", [1])]).1.feature_drifts := by
    rw [hfd]
    exact List.mem_singleton.2 rfl
  have h := (check_feature_drift_spec sample_backend sample_monitor "ts0"
    [("bmi", [0, 1]), ("x", [1])]).2.1 _ hmem
  exact ⟨hmem, h.1, h.2.2.2.2⟩

/-- Updating a thread to a state of the same doneness keeps the set of
returned threads. -/
theorem filter_isDone_update_eq {K : Nat} (ts : Fin K → PC) (i : Fin K) (v : PC)
    (h : v.isDone = (ts i).isDone) :
    (Finset.univ.filter fun j => ((Function.update ts i v) j).isDone = true) =
      (Finset.univ.filter fun j => (ts j).isDone = true) := by
  ext j
  simp only [Finset.mem_filter, Finset.mem_univ, true_and]
  rcases eq_or_ne j i with rfl | hj
  · rw [Function.update_same, h]
  · rw [Function.update_noteq hj]

/-- Updating a not-yet-returned thread to a returned state adds it to the
set of returned threads. -/
theorem filter_isDone_update_insert {K : Nat} (ts : Fin K → PC) (i : Fin K) (v : PC)
    (hv : v.isDone = true) (hi : (ts i).isDone = false) :
    (Finset.univ.filter fun j => ((Function.update ts i v) j).isDone = true) =
      insert i (Finset.univ.filter fun j => (ts j).isDone = true) := by
  ext j
  simp only [Finset.mem_filter, Finset.mem_univ, true_and, Finset.mem_insert]
  rcases eq_or_ne j i with rfl | hj
  · simp [Function.update_same, hv]
  · simp [Function.update_noteq hj, hj]

theorem sinv_init (K : Nat) : SInv (init_config K) := by
  refine ⟨by simp [init_config], by simp [init_config], ?_, ?_, ?_⟩
  · intro j hj
    simp [init_config, PC.inRegion] at hj
  · intro j hj
    simp [init_config] at hj
  · intro j r hj
    simp [init_config] at hj

theorem finv_init (K : Nat) : FInv (init_config K) := by
  refine ⟨rfl, ?_, ?_, ?_⟩
  · intro j hj
    simp [init_config, PC.inRegion] at hj
  · intro j r hj
    simp [init_config] at hj
  · simp [done_count, init_config, PC.isDone]

/-- The success-mode invariant is preserved by every step. -/
theorem sinv_step {K : Nat} {c c' : Config K} (hinv : SInv c) (h : Step true c c') :
    SInv c' := by
  obtain ⟨hcnt, hpred, hlock, hbuild, hdone⟩ := hinv
  obtain ⟨i, hstep⟩ := h
  cases hpc : c.tstate i with
  | start =>
    simp only [step_thread, hpc] at hstep
    cases hpred2 : c.pred with
    | some h0 =>
      rw [hpred2] at hstep
      simp only [Option.some.injEq] at hstep
      subst hstep
      have hc1 : c.counter = 1 ∧ h0 = 1 := by
        by_cases hc0 : c.counter = 0
        · rw [hpred2, if_pos hc0] at hpred
          cases hpred
        · rw [hpred2, if_neg hc0] at hpred
          exact ⟨Nat.le_antisymm hcnt (Nat.one_le_iff_ne_zero.2 hc0),
            Option.some.inj hpred⟩
      refine ⟨hcnt, hpred2.symm.trans hpred, ?_, ?_, ?_⟩
      · intro j hj
        dsimp only at hj
        rcases eq_or_ne j i with rfl | hji
        · rw [Function.update_same] at hj
          simp [PC.inRegion] at hj
        · rw [Function.update_noteq hji] at hj
          exact hlock j hj
      · intro j hj
        dsimp only at hj
        rcases eq_or_ne j i with rfl | hji
        · rw [Function.update_same] at hj
          cases hj
        · rw [Function.update_noteq hji] at hj
          exact absurd (hpred2.symm.trans (hbuild j hj)) (by simp)
      · intro j r hj
        dsimp only at hj
        rcases eq_or_ne j i with rfl | hji
        · rw [Function.update_same] at hj
          cases hj
          exact ⟨by rw [hc1.2], hc1.1⟩
        · rw [Function.update_noteq hji] at hj
          exact hdone j r hj
    | none =>
      rw [hpred2] at hstep
      simp only [Option.some.injEq] at hstep
      subst hstep
      refine ⟨hcnt, hpred2.symm.trans hpred, ?_, ?_, ?_⟩
      · intro j hj
        dsimp only at hj
        rcases eq_or_ne j i with rfl | hji
        · rw [Function.update_same] at hj
          simp [PC.inRegion] at hj
        · rw [Function.update_noteq hji] at hj
          exact hlock j hj
      · intro j hj
        rfl
      · intro j r hj
        dsimp only at hj
        rcases eq_or_ne j i with rfl | hji
        · rw [Function.update_same] at hj
          cases hj
        · rw [Function.update_noteq hji] at hj
          exact hdone j r hj
  | waiting =>
    simp only [step_thread, hpc] at hstep
    cases hlck : c.lock with
    | some j0 =>
      rw [hlck] at hstep
      simp at hstep
    | none =>
      rw [hlck] at hstep
      simp only [Option.some.injEq] at hstep
      subst hstep
      refine ⟨hcnt, hpred, ?_, ?_, ?_⟩
      · intro j hj
        dsimp only at hj
        rcases eq_or_ne j i with rfl | hji
        · rfl
        · rw [Function.update_noteq hji] at hj
          exact absurd (hlock j hj) (by rw [hlck]; simp)
      · intro j hj
        dsimp only at hj
        rcases eq_or_ne j i with rfl | hji
        · rw [Function.update_same] at hj
          cases hj
        · rw [Function.update_noteq hji] at hj
          exact hbuild j hj
      · intro j r hj
        dsimp only at hj
        rcases eq_or_ne j i with rfl | hji
        · rw [Function.update_same] at hj
          cases hj
        · rw [Function.update_noteq hji] at hj
          exact hdone j r hj
  | locked =>
    have hli : c.lock = some i := hlock i (by rw [hpc]; trivial)
    simp only [step_thread, hpc] at hstep
    cases hpred2 : c.pred with
    | some h0 =>
      rw [hpred2] at hstep
      simp only [Option.some.injEq] at hstep
      subst hstep
      have hc1 : c.counter = 1 ∧ h0 = 1 := by
        by_cases hc0 : c.counter = 0
        · rw [hpred2, if_pos hc0] at hpred
          cases hpred
        · rw [hpred2, if_neg hc0] at hpred
          exact ⟨Nat.le_antisymm hcnt (Nat.one_le_iff_ne_zero.2 hc0),
            Option.some.inj hpred⟩
      refine ⟨hcnt, hpred2.symm.trans hpred, ?_, ?_, ?_⟩
      · intro j hj
        dsimp only at hj
        rcases eq_or_ne j i with rfl | hji
        · rw [Function.update_same] at hj
          simp [PC.inRegion] at hj
        · rw [Function.update_noteq hji] at hj
          exact absurd (Option.some.inj ((hlock j hj).symm.trans hli)) hji
      · intro j hj
        dsimp only at hj
        rcases eq_or_ne j i with rfl | hji
        · rw [Function.update_same] at hj
          cases hj
        · rw [Function.update_noteq hji] at hj
          exact absurd (Option.some.inj
            ((hlock j (by rw [hj]; trivial)).symm.trans hli)) hji
      · intro j r hj
        dsimp only at hj
        rcases eq_or_ne j i with rfl | hji
        · rw [Function.update_same] at hj
          cases hj
          exact ⟨by rw [hc1.2], hc1.1⟩
        · rw [Function.update_noteq hji] at hj
          exact hdone j r hj
    | none =>
      rw [hpred2] at hstep
      simp only [Option.some.injEq] at hstep
      subst hstep
      refine ⟨hcnt, hpred2.symm.trans hpred, ?_, ?_, ?_⟩
      · intro j hj
        dsimp only at hj
        rcases eq_or_ne j i with rfl | hji
        · exact hli
        · rw [Function.update_noteq hji] at hj
          exact hlock j hj
      · intro j hj
        rfl
      · intro j r hj
        dsimp only at hj
        rcases eq_or_ne j i with rfl | hji
        · rw [Function.update_same] at hj
          cases hj
        · rw [Function.update_noteq hji] at hj
          exact hdone j r hj
  | building =>
    have hli : c.lock = some i := hlock i (by rw [hpc]; trivial)
    have hpred0 : c.pred = none := hbuild i hpc
    have hc0 : c.counter = 0 := by
      by_contra hc0
      rw [hpred0, if_neg hc0] at hpred
      cases hpred
    simp only [step_thread, hpc, if_true, Option.some.injEq] at hstep
    subst hstep
    refine ⟨?_, ?_, ?_, ?_, ?_⟩
    · show c.counter + 1 ≤ 1
      simp [hc0]
    · show some (c.counter + 1) = if c.counter + 1 = 0 then none else some 1
      simp [hc0]
    · intro j hj
      dsimp only at hj
      rcases eq_or_ne j i with rfl | hji
      · rw [Function.update_same] at hj
        simp [PC.inRegion] at hj
      · rw [Function.update_noteq hji] at hj
        exact absurd (Option.some.inj ((hlock j hj).symm.trans hli)) hji
    · intro j hj
      dsimp only at hj
      rcases eq_or_ne j i with rfl | hji
      · rw [Function.update_same] at hj
        cases hj
      · rw [Function.update_noteq hji] at hj
        exact absurd (Option.some.inj
          ((hlock j (by rw [hj]; trivial)).symm.trans hli)) hji
    · intro j r hj
      dsimp only at hj
      rcases eq_or_ne j i with rfl | hji
      · rw [Function.update_same] at hj
        cases hj
        exact ⟨by rw [hc0], by rw [hc0]⟩
      · rw [Function.update_noteq hji] at hj
        obtain ⟨_, h1⟩ := hdone j r hj
        rw [hc0] at h1
        cases h1
  | done r =>
    simp only [step_thread, hpc] at hstep
    cases hstep

/-- The failure-mode invariant is preserved by every step. -/
theorem finv_step {K : Nat} {c c' : Config K} (hinv : FInv c) (h : Step false c c') :
    FInv c' := by
  obtain ⟨hpred, hlock, hdone, hcard⟩ := hinv
  obtain ⟨i, hstep⟩ := h
  cases hpc : c.tstate i with
  | start =>
    simp only [step_thread, hpc] at hstep
    rw [hpred] at hstep
    simp only [Option.some.injEq] at hstep
    subst hstep
    refine ⟨rfl, ?_, ?_, ?_⟩
    · intro j hj
      dsimp only at hj
      rcases eq_or_ne j i with rfl | hji
      · rw [Function.update_same] at hj
        simp [PC.inRegion] at hj
      · rw [Function.update_noteq hji] at hj
        exact hlock j hj
    · intro j r hj
      dsimp only at hj
      rcases eq_or_ne j i with rfl | hji
      · rw [Function.update_same] at hj
        cases hj
      · rw [Function.update_noteq hji] at hj
        exact hdone j r hj
    · show c.counter = done_count _
      unfold done_count
      dsimp only
      rw [filter_isDone_update_eq c.tstate i PC.waiting (by rw [hpc]; rfl)]
      exact hcard
  | waiting =>
    simp only [step_thread, hpc] at hstep
    cases hlck : c.lock with
    | some j0 =>
      rw [hlck] at hstep
      simp at hstep
    | none =>
      rw [hlck] at hstep
      simp only [Option.some.injEq] at hstep
      subst hstep
      refine ⟨hpred, ?_, ?_, ?_⟩
      · intro j hj
        dsimp only at hj
        rcases eq_or_ne j i with rfl | hji
        · rfl
        · rw [Function.update_noteq hji] at hj
          exact absurd (hlock j hj) (by rw [hlck]; simp)
      · intro j r hj
        dsimp only at hj
        rcases eq_or_ne j i with rfl | hji
        · rw [Function.update_same] at hj
          cases hj
        · rw [Function.update_noteq hji] at hj
          exact hdone j r hj
      · show c.counter = done_count _
        unfold done_count
        dsimp only
        rw [filter_isDone_update_eq c.tstate i PC.locked (by rw [hpc]; rfl)]
        exact hcard
  | locked =>
    have hli : c.lock = some i := hlock i (by rw [hpc]; trivial)
    simp only [step_thread, hpc] at hstep
    rw [hpred] at hstep
    simp only [Option.some.injEq] at hstep
    subst hstep
    refine ⟨rfl, ?_, ?_, ?_⟩
    · intro j hj
      dsimp only at hj
      rcases eq_or_ne j i with rfl | hji
      · exact hli
      · rw [Function.update_noteq hji] at hj
        exact hlock j hj
    · intro j r hj
      dsimp only at hj
      rcases eq_or_ne j i with rfl | hji
      · rw [Function.update_same] at hj
        cases hj
      · rw [Function.update_noteq hji] at hj
        exact hdone j r hj
    · show c.counter = done_count _
      unfold done_count
      dsimp only
      rw [filter_isDone_update_eq c.tstate i PC.building (by rw [hpc]; rfl)]
      exact hcard
  | building =>
    have hli : c.lock = some i := hlock i (by rw [hpc]; trivial)
    simp only [step_thread, hpc] at hstep
    rw [if_neg (by simp)] at hstep
    simp only [Option.some.injEq] at hstep
    subst hstep
    refine ⟨hpred, ?_, ?_, ?_⟩
    · intro j hj
      dsimp only at hj
      rcases eq_or_ne j i with rfl | hji
      · rw [Function.update_same] at hj
        simp [PC.inRegion] at hj
      · rw [Function.update_noteq hji] at hj
        exact absurd (Option.some.inj ((hlock j hj).symm.trans hli)) hji
    · intro j r hj
      dsimp only at hj
      rcases eq_or_ne j i with rfl | hji
      · rw [Function.update_same] at hj
        cases hj
        rfl
      · rw [Function.update_noteq hji] at hj
        exact hdone j r hj
    · show c.counter + 1 = done_count _
      unfold done_count
      dsimp only
      rw [filter_isDone_update_insert c.tstate i (PC.done none) rfl (by rw [hpc]; rfl),
        Finset.card_insert_of_not_mem (by simp [hpc, PC.isDone]), hcard]
      rfl
  | done r =>
    simp only [step_thread, hpc] at hstep
    cases hstep

/-- Every reachable configuration of a successful-constructor run
satisfies the success invariant. -/
theorem sinv_reaches {K : Nat} {c : Config K}
    (h : Reaches true (init_config K) c) : SInv c := by
  induction h with
  | refl => exact sinv_init K
  | tail _ hstep ih => exact sinv_step ih hstep

/-- Every reachable configuration of a failing-constructor run satisfies
the failure invariant. -/
theorem finv_reaches {K : Nat} {c : Config K}
    (h : Reaches false (init_config K) c) : FInv c := by
  induction h with
  | refl => exact finv_init K
  | tail _ hstep ih => exact finv_step ih hstep

/-- In a terminal configuration every thread counts as returned. -/
theorem done_count_terminal {K : Nat} {c : Config K} (ht : Terminal c) :
    done_count c = K := by
  unfold done_count
  rw [Finset.filter_true_of_mem]
  · simp
  · intro i _
    obtain ⟨r, hr⟩ := ht i
    rw [hr]
    rfl

/-- Claim C5, amended: under any interleaving of `K ≥ 1` concurrent
first-time `get_predictor` calls, when the constructor succeeds it runs
exactly once and every caller returns the identical shared handle
(the one stored by that single construction).  When the constructor
raises, however, nothing is cached and every caller performs its own
construction attempt — `K` constructions in a complete run — with each
caller observing a failure, not a shared one. -/
theorem predictor_manager_singleton (K : Nat) (hK : 0 < K) (c : Config K) :
    (Reaches true (init_config K) c → Terminal c →
      c.counter = 1 ∧ ∀ i : Fin K, c.tstate i = PC.done (some 1)) ∧
    (Reaches false (init_config K) c → Terminal c →
      c.counter = K ∧ ∀ i : Fin K, c.tstate i = PC.done none) := by
  constructor
  · intro hr ht
    obtain ⟨_, _, _, _, hdone⟩ := sinv_reaches hr
    have i0 : Fin K := ⟨0, hK⟩
    obtain ⟨r0, hr0⟩ := ht i0
    refine ⟨(hdone i0 r0 hr0).2, fun i => ?_⟩
    obtain ⟨r, hri⟩ := ht i
    rw [hri, (hdone i r hri).1]
  · intro hr ht
    obtain ⟨_, _, hdone, hcard⟩ := finv_reaches hr
    refine ⟨hcard.trans (done_count_terminal ht), fun i => ?_⟩
    obtain ⟨r, hri⟩ := ht i
    rw [hri, hdone i r hri]

/-- The explicit failure-mode schedule: thread 0 runs its whole call
(constructor raises), then thread 1 does the same. -/
theorem reaches_cex8 : Reaches false (init_config 2) cex8 := by
  have s1 : Step false (init_config 2) cex1 := ⟨0, rfl⟩
  have s2 : Step false cex1 cex2 := ⟨0, rfl⟩
  have s3 : Step false cex2 cex3 := ⟨0, rfl⟩
  have s4 : Step false cex3 cex4 := ⟨0, rfl⟩
  have s5 : Step false cex4 cex5 := ⟨1, rfl⟩
  have s6 : Step false cex5 cex6 := ⟨1, rfl⟩
  have s7 : Step false cex6 cex7 := ⟨1, rfl⟩
  have s8 : Step false cex7 cex8 := ⟨1, rfl⟩
  exact .head s1 (.head s2 (.head s3 (.head s4 (.head s5 (.head s6 (.head s7
    (.head s8 .refl)))))))

/-- A complete success-mode run of one first caller. -/
theorem reaches_wex4 : Reaches true (init_config 1) wex4 := by
  have s1 : Step true (init_config 1) wex1 := ⟨0, rfl⟩
  have s2 : Step true wex1 wex2 := ⟨0, rfl⟩
  have s3 : Step true wex2 wex3 := ⟨0, rfl⟩
  have s4 : Step true wex3 wex4 := ⟨0, rfl⟩
  exact .head s1 (.head s2 (.head s3 (.head s4 .refl)))

/-- Claim C5 as stated is false on the code: with two concurrent
first-callers and a failing constructor, there is a complete interleaving
in which both callers run, the underlying construction is performed twice
— not exactly once — and each caller propagates its own failure. -/
theorem predictor_manager_counterexample :
    Reaches false (init_config 2) cex8 ∧ Terminal cex8 ∧
    cex8.counter = 2 ∧ cex8.counter ≠ 1 := by
  refine ⟨reaches_cex8, fun i => ⟨none, ?_⟩, rfl, by decide⟩
  fin_cases i <;> rfl

theorem predictor_manager_singleton_witness :
    (wex4.counter = 1 ∧ ∀ i : Fin 1, wex4.tstate i = PC.done (some 1)) ∧
    (cex8.counter = 2 ∧ ∀ i : Fin 2, cex8.tstate i = PC.done none) := by
  constructor
  · refine (predictor_manager_singleton 1 (by norm_num) wex4).1 reaches_wex4 ?_
    intro i
    exact ⟨some 1, by fin_cases i; rfl⟩
  · refine (predictor_manager_singleton 2 (by norm_num) cex8).2 reaches_cex8 ?_
    intro i
    exact ⟨none, by fin_cases i <;> rfl⟩

end Diana
